import Mathlib

/-!
Verification of the FlowLite API plugin (`__init__.py`).

The plugin has two cores:

* a catalog extraction engine (`_extract_list`, `_extract_loras`,
  `_build_catalog`) over a loosely typed registry snapshot, memoized by a
  TTL cache inside the `flowlite_catalog` handler, and
* an image delivery pipeline (`flowlite_image`) that resolves a path under a
  base directory, optionally transcodes PNG bytes to JPEG
  (`_compress_to_jpeg`), and conditionally deletes the source file.

Python values flowing through the registry snapshot are modelled by the
inductive `PyVal`. Python dictionaries are modelled as association lists in
iteration order (Python dicts preserve insertion order and have unique keys;
lookup takes the first matching key). Byte strings are `List Nat`.
External services (PIL, the filesystem, the host registry) are modelled as
explicit oracles passed in, as they are external collaborators of the code.
-/

/-- Model of a Python value as it can appear in the `object_info` registry
snapshot: strings, ints, bools, None, lists, tuples and dicts. -/
inductive PyVal where
  | str (s : String)
  | int (n : Int)
  | bool (b : Bool)
  | none
  | list (xs : List PyVal)
  | tuple (xs : List PyVal)
  | dict (entries : List (PyVal × PyVal))

/-- A Python dict, modelled as an association list in iteration order. -/
abbrev PyDict := List (PyVal × PyVal)

/-- Python truthiness (`bool(v)`) for the modelled values: empty
strings/lists/tuples/dicts, `0`, `False` and `None` are falsy. -/
def truthy : PyVal → Bool
  | .str s => s ≠ ""
  | .int n => n ≠ 0
  | .bool b => b
  | .none => false
  | .list xs => !xs.isEmpty
  | .tuple xs => !xs.isEmpty
  | .dict es => !es.isEmpty

/-- Whether a dict key equals the string `k` (dict keys in the snapshot are
compared against string literals in the source). -/
def keyMatches (v : PyVal) (k : String) : Bool :=
  match v with
  | .str s => s = k
  | _ => false

/-- Model of `d.get(k)` for a string key: the value of the first entry whose
key is the string `k`, or `None` when absent. -/
def pyGet (d : PyDict) (k : String) : PyVal :=
  match d.find? (fun e => keyMatches e.1 k) with
  | some e => e.2
  | Option.none => .none

/-- Model of Python `a or b`: `a` when truthy, else `b`. -/
def pyOr (a b : PyVal) : PyVal :=
  if truthy a then a else b

/-- Source lines 27-33 (and 62-68): from a component spec, the `required` and
`optional` maps under `spec["input"]`; `none` when `spec` is not a dict or
`spec.get("input")` is not a dict; a non-dict `required`/`optional` value is
replaced by the empty dict. -/
def compMaps (spec : PyVal) : Option (PyDict × PyDict) :=
  match spec with
  | .dict entries =>
    match pyGet entries "input" with
    | .dict inp =>
      let req := match pyGet inp "required" with | .dict d => d | _ => []
      let opt := match pyGet inp "optional" with | .dict d => d | _ => []
      some (req, opt)
    | _ => Option.none
  | _ => Option.none

/-- Whitespace stripping on a character list: drop leading and trailing
whitespace. Models Python's `str.strip()`. -/
def stripChars (l : List Char) : List Char :=
  ((l.dropWhile Char.isWhitespace).reverse.dropWhile Char.isWhitespace).reverse

/-- Model of Python `s.strip()`. (Lean's `String.trim` is semantically the
same but does not reduce in the kernel, so we strip on the character list.) -/
def pyStrip (s : String) : String := String.mk (stripChars s.toList)

/-- Source line 42: an item of the choice list contributes `item.strip()`
when it is a string and non-blank after stripping. -/
def itemStr : PyVal → Option String
  | .str s => if pyStrip s = "" then Option.none else some (pyStrip s)
  | _ => Option.none

/-- Source lines 35-38 (`lspec = req.get(k) or opt.get(k)`, the `not lspec`
guard and the `isinstance(lspec, (list, tuple)) and lspec` guard): the first
element of the field spec, when the spec is a truthy list or tuple. -/
def firstOfChoice (lspec : PyVal) : Option PyVal :=
  if truthy lspec then
    match lspec with
    | .list (f :: _) => some f
    | .tuple (f :: _) => some f
    | _ => Option.none
  else Option.none

/-- Source lines 40-43: the non-blank stripped strings of the choice list,
when the first element of the field spec is itself a list or tuple. -/
def choiceStrings (first : PyVal) : List String :=
  match first with
  | .list items => items.filterMap itemStr
  | .tuple items => items.filterMap itemStr
  | _ => []

/-- Candidate values contributed by one requested key `k` for one component:
lines 35-43 of the source. -/
def keyCandidates (req opt : PyDict) (k : String) : List String :=
  match firstOfChoice (pyOr (pyGet req k) (pyGet opt k)) with
  | some first => choiceStrings first
  | Option.none => []

/-- One diagnostic extraction record (source lines 45-46 and 79-80):
the component name, the key matched, the candidate count and the first
three raw candidates. -/
structure DebugRec where
  node : PyVal
  key : String
  count : Nat
  sample : List PyVal

/-- Diagnostic records contributed by one requested key for one component:
a record is emitted exactly when the field spec's first element is a
non-empty list or tuple (source lines 44-46). -/
def keyDebug (nodeName : PyVal) (req opt : PyDict) (k : String) : List DebugRec :=
  match firstOfChoice (pyOr (pyGet req k) (pyGet opt k)) with
  | some (.list items) =>
    if !items.isEmpty then [⟨nodeName, k, items.length, items.take 3⟩] else []
  | some (.tuple items) =>
    if !items.isEmpty then [⟨nodeName, k, items.length, items.take 3⟩] else []
  | _ => []

/-- The raw (pre-deduplication) value list `out` of `_extract_list`
(source lines 25-46): components in snapshot iteration order; for each
component with usable maps, every requested key in order contributes its
candidates. The source has no early exit after a matching key. -/
def extractRaw (object_info : PyDict) (keys : List String) : List String :=
  object_info.flatMap fun e =>
    match compMaps e.2 with
    | some (req, opt) => keys.flatMap fun k => keyCandidates req opt k
    | Option.none => []

/-- The debug records accumulated by `_extract_list` into the shared
`debug_info` list, in the same traversal order as `extractRaw`. The source
fills `out` and `debug_info` in a single pass; the two traversals produce
the same lists. -/
def extractDebug (object_info : PyDict) (keys : List String) : List DebugRec :=
  object_info.flatMap fun e =>
    match compMaps e.2 with
    | some (req, opt) => keys.flatMap fun k => keyDebug e.1 req opt k
    | Option.none => []

/-- The deduplication loop of source lines 47-53 (and 81-87): keep the first
occurrence of each name, preserving order. `seen` models the `seen` set. -/
def dedupGo (seen : List String) : List String → List String
  | [] => []
  | x :: xs => if x ∈ seen then dedupGo seen xs else x :: dedupGo (x :: seen) xs

/-- Deduplicate keeping first occurrences (source lines 47-53). -/
def dedupFirst (l : List String) : List String := dedupGo [] l

/-- Model of `_extract_list(object_info, keys, debug_info)` (source lines
23-53). The `debug` flag models `debug_info is not None`; the second
component is the list of records appended to `debug_info` by this call. -/
def extract_list (object_info : PyDict) (keys : List String) (debug : Bool) :
    List String × List DebugRec :=
  (dedupFirst (extractRaw object_info keys),
   if debug then extractDebug object_info keys else [])

/-- Whether the character list `hay` starts with `needle`. Models Python's
`str.startswith`, used below both for the substring test of
`_extract_loras` and for the containment check of `flowlite_image`. -/
def startsWithChars : List Char → List Char → Bool
  | _, [] => true
  | [], _ :: _ => false
  | c :: cs, d :: ds => c == d && startsWithChars cs ds

/-- Whether `needle` occurs as a contiguous substring of `hay`. Models
Python's `in` operator on strings. -/
def containsChars : List Char → List Char → Bool
  | [], needle => startsWithChars [] needle
  | c :: rest, needle => startsWithChars (c :: rest) needle || containsChars rest needle

/-- Source line 60: component filter of `_extract_loras` — the component name
is a string containing the substring "lora" case-insensitively. -/
def isLoraNode : PyVal → Bool
  | .str s => containsChars (s.toList.map Char.toLower) "lora".toList
  | _ => false

/-- The raw value list of `_extract_loras` (source lines 58-80): like
`extractRaw` but components are pre-filtered by `isLoraNode` and only the
single key "lora_name" is inspected. The source duplicates the extraction
logic inline; it is the same per-key logic as `_extract_list`. -/
def lorasRaw (object_info : PyDict) : List String :=
  object_info.flatMap fun e =>
    if isLoraNode e.1 then
      match compMaps e.2 with
      | some (req, opt) => keyCandidates req opt "lora_name"
      | Option.none => []
    else []

/-- The debug records of `_extract_loras` (source lines 78-80). -/
def lorasDebug (object_info : PyDict) : List DebugRec :=
  object_info.flatMap fun e =>
    if isLoraNode e.1 then
      match compMaps e.2 with
      | some (req, opt) => keyDebug e.1 req opt "lora_name"
      | Option.none => []
    else []

/-- Model of `_extract_loras(object_info, debug_info)` (source lines 56-87). -/
def extract_loras (object_info : PyDict) (debug : Bool) :
    List String × List DebugRec :=
  (dedupFirst (lorasRaw object_info),
   if debug then lorasDebug object_info else [])

/-- The output document of `_build_catalog` (source lines 90-110). The
timestamp field is set from `time.time()`; our model passes each clock
reading in explicitly (`now`). `extraction_debug` is the optional list of
diagnostic records, present exactly when `debug` is requested. -/
structure Catalog where
  ts : Nat
  models_all : List String
  models_ckpt : List String
  models_unet : List String
  loras : List String
  vae : List String
  samplers : List String
  schedulers : List String
  extraction_debug : Option (List DebugRec)

/-- Model of `_build_catalog(object_info, debug)` (source lines 90-110).
`now` models the `time.time()` call at line 95. The source threads one
shared `debug_info` list through all seven extraction calls in order;
`extraction_debug` concatenates the records in that call order. -/
def build_catalog (object_info : PyDict) (debug : Bool) (now : Nat) : Catalog where
  ts := now
  models_all := (extract_list object_info ["unet_name", "ckpt_name", "model_name"] debug).1
  models_ckpt := (extract_list object_info ["ckpt_name", "model_name"] debug).1
  models_unet := (extract_list object_info ["unet_name"] debug).1
  loras := (extract_loras object_info debug).1
  vae := (extract_list object_info ["vae_name", "vae"] debug).1
  samplers := (extract_list object_info ["sampler_name"] debug).1
  schedulers := (extract_list object_info ["scheduler"] debug).1
  extraction_debug :=
    if debug then
      some ((extract_list object_info ["unet_name", "ckpt_name", "model_name"] debug).2
        ++ (extract_list object_info ["ckpt_name", "model_name"] debug).2
        ++ (extract_list object_info ["unet_name"] debug).2
        ++ (extract_loras object_info debug).2
        ++ (extract_list object_info ["vae_name", "vae"] debug).2
        ++ (extract_list object_info ["sampler_name"] debug).2
        ++ (extract_list object_info ["scheduler"] debug).2)
    else Option.none

/-- The process-wide catalog cache (source line 16): a timestamp and the
last stored catalog (`None` initially). -/
structure CacheState where
  ts : Nat
  data : Option Catalog

/-- The initial cache `{"ts": 0, "data": None}` (source line 16). -/
def initialCache : CacheState := ⟨0, Option.none⟩

/-- Model of the `flowlite_catalog` request handler (source lines 155-192).

Inputs: the current cache, the `refresh`/`debug` query flags, the reading
`now` of `time.time()` at line 161, the readings `tResp` and `tCache` of
`time.time()` inside the two `_build_catalog` calls at lines 181 and 182,
the TTL, and the registry snapshot `object_info` that the provider
(`nodes.NODE_CLASS_MAPPINGS` plus `INPUT_TYPES()` calls, lines 167-179)
would deliver.

Output: the catalog carried by the response, the new cache state, and the
number of times the snapshot provider was invoked (0 on a cache hit, 1 on a
rebuild). On a rebuild the source builds the response catalog and the
cached catalog by two separate `_build_catalog` calls; the cache entry is
always built with `debug=False` and is stamped with `now`. -/
def flowlite_catalog (cache : CacheState) (refresh debug : Bool)
    (now tResp tCache ttl : Nat) (object_info : PyDict) :
    Catalog × CacheState × Nat :=
  let rebuilt : Catalog × CacheState × Nat :=
    (build_catalog object_info debug tResp,
     ⟨now, some (build_catalog object_info false tCache)⟩, 1)
  match cache.data, refresh with
  | some c, false => if now - cache.ts < ttl then (c, cache, 0) else rebuilt
  | _, _ => rebuilt

/-!
Path resolution and image delivery (`flowlite_image`, source lines 200-275).

Filesystem paths are modelled at path-component granularity: an absolute
path is a `List String` of components. `os.path.join` concatenates the
component lists of its arguments; `os.path.realpath` is modelled by
`normalize`, which resolves `.` and `..` segments on an absolute path of a
symlink-free filesystem. The `str.startswith` comparison of source line 231
is modelled faithfully as a character-level prefix test on the rendered
path strings (`renderPath`, `startsWithChars`): this is what makes the
check a *string* prefix check rather than a path-descendant check.
-/

/-- Split a path string on `/` into components; models the component
decomposition `os.path.join`/`realpath` perform on their string inputs
(Python's `"".split("/") == [""]` likewise yields one empty component). -/
def splitPathAux : List Char → List Char → List String
  | [], cur => [String.mk cur.reverse]
  | c :: rest, cur =>
    if c = '/' then String.mk cur.reverse :: splitPathAux rest []
    else splitPathAux rest (c :: cur)

/-- Component list of a (relative) path string. -/
def splitPath (s : String) : List String := splitPathAux s.toList []

/-- Resolve `.`, `..` and empty segments against an accumulator, clamping
`..` at the root: the canonicalization `os.path.realpath` performs on an
absolute path when no symlinks are present. -/
def normalizePathAux (acc : List String) : List String → List String
  | [] => acc
  | c :: cs =>
    if c = "" ∨ c = "." then normalizePathAux acc cs
    else if c = ".." then normalizePathAux acc.dropLast cs
    else normalizePathAux (acc ++ [c]) cs

/-- Canonical form of an absolute path given by components. -/
def normalizePath (cs : List String) : List String := normalizePathAux [] cs

/-- Render an absolute path as its character string: `/a/b/c`, and `/` for
the root. This is the string on which source line 231 calls `startswith`. -/
def renderComponents : List String → List Char
  | [] => []
  | c :: cs => '/' :: c.toList ++ renderComponents cs

/-- Rendered absolute path (the root renders as a single slash). -/
def renderPath (cs : List String) : List Char :=
  if cs = [] then ['/'] else renderComponents cs

/-- The three host-configured base directories (`folder_paths`), each an
absolute path in components. -/
structure Dirs where
  output : List String
  input : List String
  temp : List String

/-- Source lines 215-222: pick the base directory for the `type` query
parameter; any unrecognized value falls back to the output directory. -/
def baseDirFor (dirs : Dirs) (imgType : String) : List String :=
  if imgType = "output" then dirs.output
  else if imgType = "input" then dirs.input
  else if imgType = "temp" then dirs.temp
  else dirs.output

/-- Outcome of the path containment check of source lines 224-232. -/
inductive ResolveResult where
  | ok (path : List String)
  | pathEscape
deriving DecidableEq

/-- Model of the path resolution step of `flowlite_image` (source lines
215-232): compose `base/subfolder/filename`, canonicalize the composition
and the base directory, and accept when the rendered canonical composition
starts with the rendered canonical base (`str.startswith`, line 231);
otherwise answer the 403 "Invalid path" error. -/
def resolvePath (dirs : Dirs) (imgType subfolder filename : String) :
    ResolveResult :=
  let base := baseDirFor dirs imgType
  let composed :=
    if subfolder ≠ "" then base ++ splitPath subfolder ++ splitPath filename
    else base ++ splitPath filename
  let full_real := normalizePath composed
  let base_real := normalizePath base
  if startsWithChars (renderPath full_real) (renderPath base_real) then
    .ok full_real
  else .pathEscape

/-- Oracle for the PIL-dependent body of `_compress_to_jpeg` (source lines
120-136). PIL is an external library: `decode` models `Image.open` together
with the mode-normalization block (lines 121-132), `encode` models
`img.save(..., format="JPEG", quality=quality, optimize=True)` plus
`output.getvalue()`; an exception raised anywhere in the `try` block is
modelled by `Option.none`. `PilImage` is an abstract handle for the
in-memory image. -/
structure PilImage where
  id : Nat

/-- The available-PIL oracle: see `PilImage`. -/
structure Pil where
  decode : List Nat → Option PilImage
  encode : PilImage → Nat → Option (List Nat)

/-- Model of `_compress_to_jpeg(data, quality)` (source lines 113-139).
`pil = Option.none` models the `ImportError` branch (PIL unavailable). Every
failure path returns the original bytes with the `image/png` mime type; the
function is total, so no error propagates to the caller. -/
def compress_to_jpeg (pil : Option Pil) (data : List Nat) (quality : Nat) :
    List Nat × String :=
  match pil with
  | Option.none => (data, "image/png")
  | some p =>
    match p.decode data with
    | Option.none => (data, "image/png")
    | some img =>
      match p.encode img quality with
      | Option.none => (data, "image/png")
      | some out => (out, "image/jpeg")

/-- The eight PNG signature bytes checked at source line 244. -/
def pngMagic : List Nat := [0x89, 0x50, 0x4E, 0x47, 0x0D, 0x0A, 0x1A, 0x0A]

/-- Model of `filename.lower().endswith(".png")` (source line 244). -/
def lowerEndsWithPng (filename : String) : Bool :=
  ".png".toList.isSuffixOf (filename.toList.map Char.toLower)

/-- The host environment of one `flowlite_image` request: the configured
base directories, the filesystem contents keyed by canonical path, the PIL
oracle, and whether `os.remove` succeeds on a given path (a failing remove
models the caught `except` at lines 261-262). -/
structure Env where
  dirs : Dirs
  fs : List String → Option (List Nat)
  pil : Option Pil
  removeOk : List String → Bool

/-- Response of `flowlite_image`: an error status with its message, or a
successful body with the `content_type` and the `X-Original-Size`,
`X-Compressed-Size` and `X-Deleted` header values. -/
inductive ImgResult where
  | err (status : Nat) (msg : String)
  | ok (body : List Nat) (contentType : String)
      (originalSize compressedSize : Nat) (deleted : Bool)
deriving DecidableEq

/-- Model of the `flowlite_image` request handler (source lines 200-275).

Query parsing (lines 203-209) happens host-side; the model receives the
decoded parameters (`compress`/`delete_after` already as booleans, `quality`
as the parsed integer, clamped below as at line 209). The handler checks
the filename, resolves and contains the path, reads the file, decides
`was_compressed` from the `compress` flag and the PNG signals *before*
invoking the transcoder, transcodes or passes through, and deletes the
source exactly when `delete_after` and `was_compressed` hold, the file
exists and `os.remove` succeeds. -/
def flowlite_image (env : Env) (filename subfolder imgType : String)
    (compress delete_after : Bool) (quality : Nat) : ImgResult :=
  let quality := max 1 (min 100 quality)
  if filename = "" then .err 400 "filename required"
  else
    match resolvePath env.dirs imgType subfolder filename with
    | .pathEscape => .err 403 "Invalid path"
    | .ok full_path =>
      match env.fs full_path with
      | Option.none => .err 404 "File not found"
      | some data =>
        let original_size := data.length
        let was_compressed :=
          compress && (lowerEndsWithPng filename || data.take 8 == pngMagic)
        let sent := if was_compressed then compress_to_jpeg env.pil data quality
                    else (data, "image/png")
        let deleted := delete_after && was_compressed
          && (env.fs full_path).isSome && env.removeOk full_path
        .ok sent.1 sent.2 original_size sent.1.length deleted

/-!
Lemmas about the deduplication loop.
-/

theorem mem_dedupGo {a : String} :
    ∀ (l seen : List String), a ∈ dedupGo seen l ↔ a ∈ l ∧ a ∉ seen := by
  intro l
  induction l with
  | nil => intro seen; simp [dedupGo]
  | cons x xs ih =>
    intro seen
    by_cases hx : x ∈ seen
    · simp only [dedupGo, if_pos hx, ih]
      constructor
      · rintro ⟨hmem, hns⟩
        exact ⟨List.mem_cons_of_mem _ hmem, hns⟩
      · rintro ⟨hmem, hns⟩
        rcases List.mem_cons.mp hmem with h | h
        · exact absurd (h ▸ hx) hns
        · exact ⟨h, hns⟩
    · simp only [dedupGo, if_neg hx, List.mem_cons, ih]
      constructor
      · rintro (rfl | ⟨hmem, hns⟩)
        · exact ⟨Or.inl rfl, hx⟩
        · exact ⟨Or.inr hmem, fun hs => hns (Or.inr hs)⟩
      · rintro ⟨rfl | hmem, hns⟩
        · exact Or.inl rfl
        · by_cases hax : a = x
          · exact Or.inl hax
          · exact Or.inr ⟨hmem, fun hs => hs.elim hax hns⟩

theorem nodup_dedupGo : ∀ (l seen : List String), (dedupGo seen l).Nodup := by
  intro l
  induction l with
  | nil => intro seen; simp [dedupGo]
  | cons x xs ih =>
    intro seen
    by_cases hx : x ∈ seen
    · simpa [dedupGo, if_pos hx] using ih seen
    · simp only [dedupGo, if_neg hx]
      refine List.nodup_cons.mpr ⟨fun hmem => ?_, ih (x :: seen)⟩
      exact ((mem_dedupGo xs (x :: seen)).mp hmem).2 (List.mem_cons_self x seen)

theorem pairwise_dedupGo :
    ∀ (l seen : List String),
      (dedupGo seen l).Pairwise (fun a b => l.indexOf a < l.indexOf b) := by
  intro l
  induction l with
  | nil => intro seen; simp [dedupGo]
  | cons x xs ih =>
    intro seen
    by_cases hx : x ∈ seen
    · simp only [dedupGo, if_pos hx]
      refine (ih seen).imp_of_mem ?_
      intro a b ha hb hab
      have haxs := (mem_dedupGo xs seen).mp ha
      have hbxs := (mem_dedupGo xs seen).mp hb
      have hax : a ≠ x := fun h => haxs.2 (h ▸ hx)
      have hbx : b ≠ x := fun h => hbxs.2 (h ▸ hx)
      rw [List.indexOf_cons_ne _ (Ne.symm hax), List.indexOf_cons_ne _ (Ne.symm hbx)]
      exact Nat.succ_lt_succ hab
    · simp only [dedupGo, if_neg hx]
      refine List.pairwise_cons.mpr ⟨?_, ?_⟩
      · intro b hb
        have hbxs := (mem_dedupGo xs (x :: seen)).mp hb
        have hbx : b ≠ x := fun h => hbxs.2 (h ▸ List.mem_cons_self x seen)
        rw [List.indexOf_cons_self, List.indexOf_cons_ne _ (Ne.symm hbx)]
        exact Nat.succ_pos _
      · refine (ih (x :: seen)).imp_of_mem ?_
        intro a b ha hb hab
        have haxs := (mem_dedupGo xs (x :: seen)).mp ha
        have hbxs := (mem_dedupGo xs (x :: seen)).mp hb
        have hax : a ≠ x := fun h => haxs.2 (h ▸ List.mem_cons_self x seen)
        have hbx : b ≠ x := fun h => hbxs.2 (h ▸ List.mem_cons_self x seen)
        rw [List.indexOf_cons_ne _ (Ne.symm hax), List.indexOf_cons_ne _ (Ne.symm hbx)]
        exact Nat.succ_lt_succ hab

theorem mem_dedupFirst {a : String} {l : List String} :
    a ∈ dedupFirst l ↔ a ∈ l := by
  simp [dedupFirst, mem_dedupGo]

/-- What it means for `result` to be `raw` deduplicated by first occurrence:
no duplicates, the same elements, and any two results are ordered by their
first occurrences in `raw`. -/
def dedupedInFirstSeenOrder (result raw : List String) : Prop :=
  result.Nodup ∧ (∀ a, a ∈ result ↔ a ∈ raw) ∧
    result.Pairwise (fun a b => raw.indexOf a < raw.indexOf b)

theorem dedupFirst_spec (raw : List String) :
    dedupedInFirstSeenOrder (dedupFirst raw) raw :=
  ⟨nodup_dedupGo raw [], fun _ => mem_dedupFirst, pairwise_dedupGo raw []⟩

/-!
Membership in the raw extraction list.
-/

theorem mem_extractRaw {v : String} {object_info : PyDict} {keys : List String} :
    v ∈ extractRaw object_info keys ↔
      ∃ e ∈ object_info, ∃ req opt, compMaps e.2 = some (req, opt) ∧
        ∃ k ∈ keys, v ∈ keyCandidates req opt k := by
  simp only [extractRaw, List.mem_flatMap]
  constructor
  · rintro ⟨e, he, hv⟩
    refine ⟨e, he, ?_⟩
    rcases hmaps : compMaps e.2 with _ | ⟨req, opt⟩
    · rw [hmaps] at hv; simp at hv
    · rw [hmaps] at hv
      simp only [List.mem_flatMap] at hv
      rcases hv with ⟨k, hk, hvk⟩
      exact ⟨req, opt, rfl, k, hk, hvk⟩
  · rintro ⟨e, he, req, opt, hmaps, k, hk, hvk⟩
    refine ⟨e, he, ?_⟩
    rw [hmaps]
    exact List.mem_flatMap.mpr ⟨k, hk, hvk⟩


/-!
Shared fixtures for concrete witnesses and counterexamples.
-/

/-- The base directories used by the concrete request fixtures. -/
def demoDirs : Dirs := ⟨["data", "output"], ["data", "input"], ["data", "temp"]⟩

/-- Fixture: a registry snapshot with one component whose required map holds
choice lists under both "unet_name" and "ckpt_name". -/
def c3snap : PyDict :=
  [(.str "N", .dict [(.str "input", .dict [(.str "required", .dict
    [(.str "unet_name", .list [.list [.str "u1"]]),
     (.str "ckpt_name", .list [.list [.str "c1"]])])])])]

/-- Fixture: a registry snapshot with one component carrying "ckpt_name"
and "unet_name" choice lists. -/
def c9snap : PyDict :=
  [(.str "M", .dict [(.str "input", .dict [(.str "required", .dict
    [(.str "ckpt_name", .list [.list [.str "m1"]]),
     (.str "unet_name", .list [.list [.str "n1"]])])])])]

/-- Fixture: an output directory holding one PNG-named file, with PIL
unavailable and `os.remove` succeeding. -/
def c1Env : Env :=
  ⟨demoDirs,
   (fun p => if p = ["data", "output", "img.png"] then some [1, 2, 3] else Option.none),
   Option.none, fun _ => true⟩

/-- Fixture: a filesystem whose only file lives in `/data/output_snap`, a
sibling of the output base directory `/data/output` sharing it as a string
prefix. -/
def c2Env : Env :=
  ⟨demoDirs,
   (fun p => if p = ["data", "output_snap", "x"] then some [7, 7, 7] else Option.none),
   Option.none, fun _ => true⟩

/-!
Claim theorems.
-/

/-- C8: for every registry snapshot and key set, `_extract_list` output has
no duplicates and lists elements in first-occurrence order of the raw
traversal (components in registry-iteration order); likewise for
`_extract_loras`, and hence for every list of the built catalog. -/
theorem extraction_deduped_first_seen (object_info : PyDict)
    (keys : List String) (debug : Bool) (now : Nat) :
    dedupedInFirstSeenOrder (extract_list object_info keys debug).1
      (extractRaw object_info keys)
    ∧ dedupedInFirstSeenOrder (extract_loras object_info debug).1
      (lorasRaw object_info)
    ∧ (build_catalog object_info debug now).models_all.Nodup
    ∧ (build_catalog object_info debug now).models_ckpt.Nodup
    ∧ (build_catalog object_info debug now).models_unet.Nodup
    ∧ (build_catalog object_info debug now).loras.Nodup
    ∧ (build_catalog object_info debug now).vae.Nodup
    ∧ (build_catalog object_info debug now).samplers.Nodup
    ∧ (build_catalog object_info debug now).schedulers.Nodup :=
  ⟨dedupFirst_spec _, dedupFirst_spec _,
   (dedupFirst_spec _).1, (dedupFirst_spec _).1, (dedupFirst_spec _).1,
   (dedupFirst_spec _).1, (dedupFirst_spec _).1, (dedupFirst_spec _).1,
   (dedupFirst_spec _).1⟩

/-- C3 counterexample: in `c3snap` the key "unet_name" already matches the
component (contributing "u1"), yet the later key "ckpt_name" still
contributes "c1" — the source loop has no early exit, so the output is
["u1", "c1"] where the claim predicts ["u1"]. -/
theorem extract_later_key_also_contributes :
    (extract_list c3snap ["unet_name", "ckpt_name"] false).1 = ["u1", "c1"] := by
  decide

/-- C3 amended: in `_extract_list`, every requested key that matches a
component contributes its candidate values (for each key the required map
is checked before the optional map); the source imposes no
at-most-one-FieldSpec-per-component rule, so keys later in `keys` also
contribute. -/
theorem extract_every_matching_key (object_info : PyDict) (keys : List String)
    (debug : Bool) (e : PyVal × PyVal) (req opt : PyDict) (k v : String)
    (he : e ∈ object_info) (hmaps : compMaps e.2 = some (req, opt))
    (hk : k ∈ keys) (hv : v ∈ keyCandidates req opt k) :
    v ∈ (extract_list object_info keys debug).1 :=
  mem_dedupFirst.mpr (mem_extractRaw.mpr ⟨e, he, req, opt, hmaps, k, hk, hv⟩)

/-- Witness for C3's amended theorem at the `c3snap` fixture. -/
theorem extract_every_matching_key_witness :
    "c1" ∈ (extract_list c3snap ["unet_name", "ckpt_name"] false).1 :=
  extract_every_matching_key c3snap ["unet_name", "ckpt_name"] false
    (.str "N", .dict [(.str "input", .dict [(.str "required", .dict
      [(.str "unet_name", .list [.list [.str "u1"]]),
       (.str "ckpt_name", .list [.list [.str "c1"]])])])])
    [(.str "unet_name", .list [.list [.str "u1"]]),
     (.str "ckpt_name", .list [.list [.str "c1"]])] []
    "ckpt_name" "c1"
    (List.mem_singleton.mpr rfl) rfl (by decide) (by decide)

/-- C9: every string in the catalog's `models.ckpt` list, and every string
in its `models.unet` list, also appears in its `models.all` list — the
"all" key set is a superset of both narrower key sets and, in the absence
of a per-component single-match rule, membership is monotone in the key
set. -/
theorem models_all_superset (object_info : PyDict) (debug : Bool) (now : Nat)
    (v : String) :
    (v ∈ (build_catalog object_info debug now).models_ckpt →
      v ∈ (build_catalog object_info debug now).models_all)
    ∧ (v ∈ (build_catalog object_info debug now).models_unet →
      v ∈ (build_catalog object_info debug now).models_all) := by
  constructor
  · intro hv
    obtain ⟨e, he, req, opt, hmaps, k, hk, hvk⟩ :=
      mem_extractRaw.mp (mem_dedupFirst.mp hv)
    exact mem_dedupFirst.mpr (mem_extractRaw.mpr
      ⟨e, he, req, opt, hmaps, k, List.mem_cons_of_mem "unet_name" hk, hvk⟩)
  · intro hv
    obtain ⟨e, he, req, opt, hmaps, k, hk, hvk⟩ :=
      mem_extractRaw.mp (mem_dedupFirst.mp hv)
    have hk1 : k = "unet_name" := List.mem_singleton.mp hk
    exact mem_dedupFirst.mpr (mem_extractRaw.mpr
      ⟨e, he, req, opt, hmaps, k, hk1 ▸ List.mem_cons_self _ _, hvk⟩)

/-- Witness for C9 at the `c9snap` fixture. -/
theorem models_all_superset_witness :
    "m1" ∈ (build_catalog c9snap false 0).models_all :=
  (models_all_superset c9snap false 0 "m1").1 (by decide)

/-- C7: whenever PIL is unavailable, or decoding fails, or encoding fails,
`_compress_to_jpeg` returns the original bytes unchanged with the original
PNG mime type; the function is total, so no such failure raises to the
caller. -/
theorem compress_fallback (pil : Option Pil) (data : List Nat) (quality : Nat)
    (h : pil = Option.none
      ∨ ∃ p, pil = some p ∧ (p.decode data = Option.none
        ∨ ∃ img, p.decode data = some img ∧ p.encode img quality = Option.none)) :
    compress_to_jpeg pil data quality = (data, "image/png") := by
  rcases h with rfl | ⟨p, rfl, hd | ⟨img, hd, he⟩⟩
  · rfl
  · simp [compress_to_jpeg, hd]
  · simp [compress_to_jpeg, hd, he]

/-- Witness for C7: the codec-unavailable fallback on concrete bytes. -/
theorem compress_fallback_witness :
    compress_to_jpeg Option.none [1, 2, 3] 85 = ([1, 2, 3], "image/png") :=
  compress_fallback Option.none [1, 2, 3] 85 (Or.inl rfl)

/-- C1 evidence (code bug): a request with `compress=1, delete=1` for an
existing ".png" file while PIL is unavailable. The transcoder falls back
and the response body is the original bytes with the PNG mime type — a
pass-through — yet the handler, having set `was_compressed` before calling
the transcoder, still deletes the source (`X-Deleted: 1`). -/
theorem image_deletes_on_passthrough_fallback :
    flowlite_image c1Env "img.png" "" "output" true true 85
      = .ok [1, 2, 3] "image/png" 3 3 true := by decide

/-- C2 evidence (code bug): with the output base `/data/output`, the
request filename `../output_snap/x` canonicalizes to
`/data/output_snap/x`, which is not a descendant of the base (the
component-wise prefix test is false) but passes the `str.startswith`
check of line 231, so resolution succeeds and the out-of-base file is
read and served. -/
theorem resolve_accepts_prefix_sibling :
    resolvePath demoDirs "output" "" "../output_snap/x"
      = .ok ["data", "output_snap", "x"]
    ∧ (["data", "output"].isPrefixOf ["data", "output_snap", "x"]) = false
    ∧ flowlite_image c2Env "../output_snap/x" "" "output" false false 85
      = .ok [7, 7, 7] "image/png" 3 3 false := by decide

/-- C10: an `/image` request whose `type` parameter is none of "output",
"input", "temp" behaves exactly as if the type were "output". -/
theorem image_unknown_type_served_as_output (env : Env)
    (filename subfolder imgType : String) (compress delete_after : Bool)
    (quality : Nat) (h1 : imgType ≠ "output") (h2 : imgType ≠ "input")
    (h3 : imgType ≠ "temp") :
    flowlite_image env filename subfolder imgType compress delete_after quality
      = flowlite_image env filename subfolder "output" compress delete_after quality := by
  have hbase : baseDirFor env.dirs imgType = baseDirFor env.dirs "output" := by
    simp [baseDirFor, h1, h2, h3]
  simp only [flowlite_image, resolvePath, hbase]

/-- Witness for C10: the unrecognized type "banana" on a concrete request. -/
theorem image_unknown_type_witness :
    flowlite_image c1Env "img.png" "" "banana" true true 85
      = flowlite_image c1Env "img.png" "" "output" true true 85 :=
  image_unknown_type_served_as_output c1Env "img.png" "" "banana" true true 85
    (by decide) (by decide) (by decide)

/-!
Cache behaviour (claims C5 and C6).
-/

/-- Equality of the seven content lists of two catalogs (everything except
the timestamp and the diagnostic annex). -/
def contentEq (a b : Catalog) : Prop :=
  a.models_all = b.models_all ∧ a.models_ckpt = b.models_ckpt ∧
  a.models_unet = b.models_unet ∧ a.loras = b.loras ∧ a.vae = b.vae ∧
  a.samplers = b.samplers ∧ a.schedulers = b.schedulers

theorem contentEq_build (oi : PyDict) (d1 d2 : Bool) (t1 t2 : Nat) :
    contentEq (build_catalog oi d1 t1) (build_catalog oi d2 t2) :=
  ⟨rfl, rfl, rfl, rfl, rfl, rfl, rfl⟩

theorem contentEq_refl (c : Catalog) : contentEq c c :=
  ⟨rfl, rfl, rfl, rfl, rfl, rfl, rfl⟩

/-- C5 counterexample: starting from the empty cache, a first call at time 0
(rebuild, internal clock readings 1 and 2) and a second call at time 3 —
within the TTL window of 30, both with `refresh=false` — return catalogs
whose timestamp fields are 1 and 2 respectively: the source builds the
response catalog and the cached catalog by two separate `_build_catalog`
calls, so the two responses are not bit-identical. -/
theorem catalog_ts_differs_within_ttl :
    (flowlite_catalog initialCache false false 0 1 2 30 []).1.ts = 1
    ∧ (flowlite_catalog (flowlite_catalog initialCache false false 0 1 2 30 []).2.1
        false false 3 4 5 30 []).1.ts = 2 := by decide

/-- C5 amended: two consecutive `flowlite_catalog` calls with
`refresh=false`, the second falling inside the TTL window of the entry left
by the first, return catalogs with identical content lists, and the
snapshot provider is invoked at most once across the two calls (the
timestamp fields may differ when the first call performed the rebuild). -/
theorem catalog_ttl_second_call (cache : CacheState) (d1 d2 : Bool)
    (now1 t1 t2 now2 t3 t4 ttl : Nat) (oi oi2 : PyDict)
    (h : now2 - (flowlite_catalog cache false d1 now1 t1 t2 ttl oi).2.1.ts < ttl) :
    contentEq (flowlite_catalog cache false d1 now1 t1 t2 ttl oi).1
      (flowlite_catalog (flowlite_catalog cache false d1 now1 t1 t2 ttl oi).2.1
        false d2 now2 t3 t4 ttl oi2).1
    ∧ (flowlite_catalog cache false d1 now1 t1 t2 ttl oi).2.2
      + (flowlite_catalog (flowlite_catalog cache false d1 now1 t1 t2 ttl oi).2.1
          false d2 now2 t3 t4 ttl oi2).2.2 ≤ 1 := by
  obtain ⟨ts0, _ | c⟩ := cache
  · have e1 : flowlite_catalog ⟨ts0, Option.none⟩ false d1 now1 t1 t2 ttl oi
        = (build_catalog oi d1 t1,
           ⟨now1, some (build_catalog oi false t2)⟩, 1) := rfl
    rw [e1] at h ⊢
    have h' : now2 - now1 < ttl := h
    have e2 : flowlite_catalog ⟨now1, some (build_catalog oi false t2)⟩
        false d2 now2 t3 t4 ttl oi2
        = (build_catalog oi false t2,
           ⟨now1, some (build_catalog oi false t2)⟩, 0) := by
      show (if now2 - now1 < ttl then _ else _) = _
      rw [if_pos h']
    rw [e2]
    exact ⟨contentEq_build oi d1 false t1 t2, by simp⟩
  · by_cases hfirst : now1 - ts0 < ttl
    · have e1 : flowlite_catalog ⟨ts0, some c⟩ false d1 now1 t1 t2 ttl oi
          = (c, ⟨ts0, some c⟩, 0) := by
        show (if now1 - ts0 < ttl then _ else _) = _
        rw [if_pos hfirst]
      rw [e1] at h ⊢
      have h' : now2 - ts0 < ttl := h
      have e2 : flowlite_catalog ⟨ts0, some c⟩ false d2 now2 t3 t4 ttl oi2
          = (c, ⟨ts0, some c⟩, 0) := by
        show (if now2 - ts0 < ttl then _ else _) = _
        rw [if_pos h']
      rw [e2]
      exact ⟨contentEq_refl c, by simp⟩
    · have e1 : flowlite_catalog ⟨ts0, some c⟩ false d1 now1 t1 t2 ttl oi
          = (build_catalog oi d1 t1,
             ⟨now1, some (build_catalog oi false t2)⟩, 1) := by
        show (if now1 - ts0 < ttl then _ else _) = _
        rw [if_neg hfirst]
      rw [e1] at h ⊢
      have h' : now2 - now1 < ttl := h
      have e2 : flowlite_catalog ⟨now1, some (build_catalog oi false t2)⟩
          false d2 now2 t3 t4 ttl oi2
          = (build_catalog oi false t2,
             ⟨now1, some (build_catalog oi false t2)⟩, 0) := by
        show (if now2 - now1 < ttl then _ else _) = _
        rw [if_pos h']
      rw [e2]
      exact ⟨contentEq_build oi d1 false t1 t2, by simp⟩

/-- Witness for C5's amended theorem: the concrete rebuild-then-hit pair of
the counterexample satisfies it. -/
theorem catalog_ttl_second_call_witness :
    contentEq (flowlite_catalog initialCache false false 0 1 2 30 []).1
      (flowlite_catalog (flowlite_catalog initialCache false false 0 1 2 30 []).2.1
        false false 3 4 5 30 []).1
    ∧ (flowlite_catalog initialCache false false 0 1 2 30 []).2.2
      + (flowlite_catalog (flowlite_catalog initialCache false false 0 1 2 30 []).2.1
          false false 3 4 5 30 []).2.2 ≤ 1 :=
  catalog_ttl_second_call initialCache false false 0 1 2 3 4 5 30 [] [] (by decide)

/-- C6: provided the incoming cache entry carries no diagnostics (true of
the initial empty cache and preserved by every call), the entry left by any
`flowlite_catalog` call carries no diagnostics either — on a rebuild the
stored catalog is always built with `debug=False`; a cache hit (provider
invoked 0 times) returns a catalog without diagnostic records; and a
rebuild (provider invoked once) with diagnostics requested carries the
diagnostic records on that one response only. -/
theorem catalog_cache_never_diagnostic (cache : CacheState)
    (refresh debug : Bool) (now tResp tCache ttl : Nat) (oi : PyDict)
    (hinv : ∀ c, cache.data = some c → c.extraction_debug = Option.none) :
    (∀ c, (flowlite_catalog cache refresh debug now tResp tCache ttl oi).2.1.data
        = some c → c.extraction_debug = Option.none)
    ∧ ((flowlite_catalog cache refresh debug now tResp tCache ttl oi).2.2 = 0 →
      (flowlite_catalog cache refresh debug now tResp tCache ttl oi).1.extraction_debug
        = Option.none)
    ∧ ((flowlite_catalog cache refresh debug now tResp tCache ttl oi).2.2 = 1 →
      debug = true →
      ((flowlite_catalog cache refresh debug now tResp tCache ttl oi).1.extraction_debug).isSome
        = true) := by
  obtain ⟨ts0, _ | c⟩ := cache
  · have e1 : flowlite_catalog ⟨ts0, Option.none⟩ refresh debug now tResp tCache ttl oi
        = (build_catalog oi debug tResp,
           ⟨now, some (build_catalog oi false tCache)⟩, 1) := by
      cases refresh <;> rfl
    rw [e1]
    refine ⟨fun c' hc' => ?_, fun h0 => absurd h0 one_ne_zero, fun _ hdbg => ?_⟩
    · injection hc' with hc'
      rw [← hc']
      rfl
    · subst hdbg
      rfl
  · cases refresh
    · by_cases hfirst : now - ts0 < ttl
      · have e1 : flowlite_catalog ⟨ts0, some c⟩ false debug now tResp tCache ttl oi
            = (c, ⟨ts0, some c⟩, 0) := by
          show (if now - ts0 < ttl then _ else _) = _
          rw [if_pos hfirst]
        rw [e1]
        exact ⟨hinv, fun _ => hinv c rfl, fun h1 => absurd h1.symm one_ne_zero⟩
      · have e1 : flowlite_catalog ⟨ts0, some c⟩ false debug now tResp tCache ttl oi
            = (build_catalog oi debug tResp,
               ⟨now, some (build_catalog oi false tCache)⟩, 1) := by
          show (if now - ts0 < ttl then _ else _) = _
          rw [if_neg hfirst]
        rw [e1]
        refine ⟨fun c' hc' => ?_, fun h0 => absurd h0 one_ne_zero, fun _ hdbg => ?_⟩
        · injection hc' with hc'
          rw [← hc']
          rfl
        · subst hdbg
          rfl
    · have e1 : flowlite_catalog ⟨ts0, some c⟩ true debug now tResp tCache ttl oi
          = (build_catalog oi debug tResp,
             ⟨now, some (build_catalog oi false tCache)⟩, 1) := rfl
      rw [e1]
      refine ⟨fun c' hc' => ?_, fun h0 => absurd h0 one_ne_zero, fun _ hdbg => ?_⟩
      · injection hc' with hc'
        rw [← hc']
        rfl
      · subst hdbg
        rfl

/-- Witness for C6: a cache hit on a stored non-diagnostic catalog, with
diagnostics requested, returns a catalog without diagnostic records. -/
theorem catalog_cache_never_diagnostic_witness :
    (flowlite_catalog ⟨5, some (build_catalog [] false 0)⟩ false true 6 7 8 30 []).1.extraction_debug
      = Option.none :=
  (catalog_cache_never_diagnostic ⟨5, some (build_catalog [] false 0)⟩ false true 6 7 8 30 []
    (fun c hc => by injection hc with hc; rw [← hc]; rfl)).2.1 (by decide)

/-!
Path canonicalization lemmas (claim C4).
-/

theorem normalizePathAux_canonical :
    ∀ (l : List String), (∀ c ∈ l, c ≠ "" ∧ c ≠ "." ∧ c ≠ "..") →
      ∀ acc, normalizePathAux acc l = acc ++ l := by
  intro l
  induction l with
  | nil => intro _ acc; simp [normalizePathAux]
  | cons c cs ih =>
    intro hl acc
    obtain ⟨h1, h2, h3⟩ := hl c (List.mem_cons_self _ _)
    have hcs : ∀ x ∈ cs, x ≠ "" ∧ x ≠ "." ∧ x ≠ ".." :=
      fun x hx => hl x (List.mem_cons_of_mem _ hx)
    simp only [normalizePathAux]
    rw [if_neg (by simp [h1, h2]), if_neg h3, ih hcs]
    simp

theorem normalizePathAux_append (l1 l2 : List String) :
    ∀ acc, normalizePathAux acc (l1 ++ l2)
      = normalizePathAux (normalizePathAux acc l1) l2 := by
  induction l1 with
  | nil => intro acc; rfl
  | cons c cs ih =>
    intro acc
    simp only [List.cons_append, normalizePathAux]
    by_cases h1 : c = "" ∨ c = "."
    · rw [if_pos h1, if_pos h1]
      exact ih _
    · rw [if_neg h1, if_neg h1]
      by_cases h2 : c = ".."
      · rw [if_pos h2, if_pos h2]
        exact ih _
      · rw [if_neg h2, if_neg h2]
        exact ih _

theorem normalizePathAux_dotdot (acc rest : List String) :
    normalizePathAux acc (".." :: rest) = normalizePathAux acc.dropLast rest := by
  simp [normalizePathAux]

theorem dropLast_append_two (l : List String) (x y : String) :
    (l ++ [x, y]).dropLast = l ++ [x] := by
  rw [show l ++ [x, y] = (l ++ [x]) ++ [y] by simp, List.dropLast_concat]

theorem renderComponents_append (a b : List String) :
    renderComponents (a ++ b) = renderComponents a ++ renderComponents b := by
  induction a with
  | nil => rfl
  | cons c cs ih => simp [renderComponents, ih]

theorem startsWithChars_append_cancel (p a b : List Char) :
    startsWithChars (p ++ a) (p ++ b) = startsWithChars a b := by
  induction p with
  | nil => rfl
  | cons c cs ih => simp [startsWithChars, ih]

theorem mem_of_startsWithChars :
    ∀ {p s : List Char}, startsWithChars s p = true → ∀ {a : Char}, a ∈ p → a ∈ s := by
  intro p
  induction p with
  | nil => intro s _ a ha; cases ha
  | cons d ds ih =>
    intro s h a ha
    cases s with
    | nil => simp [startsWithChars] at h
    | cons c cs =>
      simp only [startsWithChars, Bool.and_eq_true, beq_iff_eq] at h
      obtain ⟨rfl, h2⟩ := h
      rcases List.mem_cons.mp ha with rfl | ha2
      · exact List.mem_cons_self _ _
      · exact List.mem_cons_of_mem _ (ih h2 ha2)

/-- C4 counterexample: with a two-level subfolder "a/b", the filename
"../../secret" canonicalizes back inside the base directory
(`/data/output/secret`), so resolution succeeds instead of failing with
PathEscape, refuting the claim's universal quantification over subfolders. -/
theorem resolve_dotdot_reenters_base :
    resolvePath demoDirs "output" "a/b" "../../secret"
      = .ok ["data", "output", "secret"] := by decide

/-- C4 amended: `resolvePath` on filename "../../secret" fails with
PathEscape for every kind and every configured base assignment, provided
the subfolder is empty and the base directory of the requested kind is a
canonical absolute path with at least two components; a subfolder of
canonical depth two or more instead re-enters the base directory and is
accepted (see the counterexample). -/
theorem resolve_dotdot_escape_empty_subfolder (dirs : Dirs) (imgType : String)
    (hcanon : ∀ c ∈ baseDirFor dirs imgType, c ≠ "" ∧ c ≠ "." ∧ c ≠ "..")
    (hshape : ∃ D x y, baseDirFor dirs imgType = D ++ [x, y]) :
    resolvePath dirs imgType "" "../../secret" = .pathEscape := by
  obtain ⟨D, x, y, hbase⟩ := hshape
  have hres : resolvePath dirs imgType "" "../../secret" =
      (if startsWithChars
          (renderPath (normalizePath (baseDirFor dirs imgType ++ ["..", "..", "secret"])))
          (renderPath (normalizePath (baseDirFor dirs imgType))) then
        ResolveResult.ok (normalizePath (baseDirFor dirs imgType ++ ["..", "..", "secret"]))
      else ResolveResult.pathEscape) := rfl
  have hnormBase : normalizePath (baseDirFor dirs imgType) = D ++ [x, y] := by
    show normalizePathAux [] (baseDirFor dirs imgType) = D ++ [x, y]
    rw [normalizePathAux_canonical _ hcanon [], List.nil_append, hbase]
  have hnormFull :
      normalizePath (baseDirFor dirs imgType ++ ["..", "..", "secret"])
        = D ++ ["secret"] := by
    show normalizePathAux [] (baseDirFor dirs imgType ++ ["..", "..", "secret"])
      = D ++ ["secret"]
    rw [normalizePathAux_append, normalizePathAux_canonical _ hcanon [],
      List.nil_append, hbase, normalizePathAux_dotdot, normalizePathAux_dotdot,
      dropLast_append_two, List.dropLast_concat]
    have hsec : normalizePathAux D ["secret"] = D ++ ["secret"] := by
      rw [normalizePathAux_canonical ["secret"] (by decide) D]
    exact hsec
  have hcond : startsWithChars
      (renderPath (normalizePath (baseDirFor dirs imgType ++ ["..", "..", "secret"])))
      (renderPath (normalizePath (baseDirFor dirs imgType))) = false := by
    rw [hnormBase, hnormFull]
    have hne1 : D ++ ["secret"] ≠ ([] : List String) := by simp
    have hne2 : D ++ [x, y] ≠ ([] : List String) := by simp
    rw [renderPath, if_neg hne1, renderPath, if_neg hne2,
      renderComponents_append, renderComponents_append]
    apply Bool.eq_false_iff.mpr
    intro habs
    rw [startsWithChars_append_cancel] at habs
    have habs2 : startsWithChars ("secret".toList ++ renderComponents [])
        (x.toList ++ renderComponents [y]) = true := by
      simpa [renderComponents, startsWithChars] using habs
    have hslash : '/' ∈ x.toList ++ renderComponents [y] :=
      List.mem_append_right _ (List.mem_cons_self _ _)
    have : '/' ∈ "secret".toList ++ renderComponents [] :=
      mem_of_startsWithChars habs2 hslash
    rw [show renderComponents [] = ([] : List Char) from rfl, List.append_nil] at this
    exact absurd this (by decide)
  rw [hres, hcond]
  simp

/-- Witness for C4's amended theorem at the demo base `/data/output`. -/
theorem resolve_dotdot_escape_witness :
    resolvePath demoDirs "output" "" "../../secret" = .pathEscape :=
  resolve_dotdot_escape_empty_subfolder demoDirs "output" (by decide)
    ⟨[], "data", "output", rfl⟩
